import Mathlib

/-!
Verification development for the lead-oxide proxy-list client.

The definitions below are a shallow embedding of the repository's source:
  constants.rs  : DELAY
  types.rs      : Level, Protocol, Countries, NaiveResponse
  errors.rs     : ApiError and the response-to-error classification
  proxy.rs      : RawProxy/Proxy conversion, country filtering
  opts.rs       : Opts, Limit (page size), Opts::new
  fetcher.rs    : the rate-limited fetch loop (try_get), drain, LAST_FETCHED
  lib.rs        : Session::new (an early draft revision kept in the tree)

Rust Instants are modelled as natural numbers (milliseconds); Durations as
naturals in the unit each site uses. Thread sleep is modelled as advancing
the current time by exactly the requested duration (sleeping longer only
widens the gaps the theorems bound from below). Rust panics are modelled by
Option results (none = panic). Remote fetches are modelled by a script: a
list of outcomes, one per HTTP call the loop issues; running out of script
is the model's fuel exhaustion marker, not a behaviour of the code.
-/

namespace LeadOxide

/-- constants.rs: DELAY, the minimum spacing between keyless requests,
1.1 seconds expressed in milliseconds (the cfg(test) build shrinks it to
100 ms; the theorems are uniform in the value and use the release one). -/
def DELAY : Nat := 1100

/-- types.rs: anonymity level of a proxy. -/
inductive Level where
  | anonymous
  | elite
deriving DecidableEq

/-- types.rs: protocol spoken by a proxy. -/
inductive Protocol where
  | http
  | socks4
  | socks5
deriving DecidableEq

/-- iso_country crate: a country is either a recognised ISO 3166-1 alpha-2
code or the Unspecified sentinel. -/
inductive Country where
  | known (code : String)
  | unspecified
deriving DecidableEq

/-- Model of the recognised ISO 3166-1 alpha-2 code table of the
iso_country crate (a representative subset; the theorems never depend on
which codes are in the table, only on membership vs non-membership). -/
def isoCodes : List String :=
  ["AD", "AR", "AT", "AU", "BE", "BR", "CA", "CH", "CL", "CN", "CO", "CZ",
   "DE", "DK", "EE", "ES", "FI", "FR", "GB", "GR", "HU", "ID", "IE", "IL",
   "IN", "IT", "JP", "KR", "LT", "LV", "MX", "NL", "NO", "NZ", "PL", "PT",
   "RO", "RU", "SE", "SG", "SK", "TH", "TR", "UA", "US", "VN", "ZA"]

/-- serde deserialisation of a Country from its wire code: succeeds only on
a recognised code. -/
def deserializeCountry (s : String) : Option Country :=
  if s ∈ isoCodes then some (.known s) else none

/-- proxy.rs ignore_bad_countries: country codes that fail to deserialise
are replaced by the Unspecified sentinel instead of failing the batch. -/
def ignore_bad_countries (s : String) : Country :=
  (deserializeCountry s).getD .unspecified

/-- std::net::SocketAddrV4, as an opaque pair of ip and port. -/
structure SocketAddrV4 where
  ip : Nat
  port : Nat
deriving DecidableEq

/-- proxy.rs Supports: the capability flags of a proxy. -/
structure Supports where
  https : Bool
  get : Bool
  post : Bool
  cookies : Bool
  referer : Bool
  forwards_user_agent : Bool
  connects_to_google : Bool
deriving DecidableEq

/-- proxy.rs: derived Default for Supports, every flag false. -/
def Supports.default : Supports :=
  ⟨false, false, false, false, false, false, false⟩

/-- proxy.rs RawSupports: the wire shape of the capability flags, each a
0/1/absent numeral rather than a boolean. -/
structure RawSupports where
  https : Option Nat
  get : Option Nat
  post : Option Nat
  cookies : Option Nat
  referer : Option Nat
  forwards_user_agent : Option Nat
  connects_to_google : Option Nat
deriving DecidableEq

/-- proxy.rs, the parse_field closure inside From RawSupports: a present
field means true exactly when it is 1, an absent field means false. -/
def parse_field : Option Nat → Bool
  | some v => v == 1
  | none => false

/-- proxy.rs: impl From RawSupports for Supports. -/
def Supports.fromRaw (raw : RawSupports) : Supports :=
  { https := parse_field raw.https
    get := parse_field raw.get
    post := parse_field raw.post
    cookies := parse_field raw.cookies
    referer := parse_field raw.referer
    forwards_user_agent := parse_field raw.forwards_user_agent
    connects_to_google := parse_field raw.connects_to_google }

/-- chrono NaiveDateTime, as plain calendar fields. -/
structure NaiveDateTime where
  year : Nat
  month : Nat
  day : Nat
  hour : Nat
  minute : Nat
  second : Nat
deriving DecidableEq

/-- Value of a decimal digit character, none for a non-digit. -/
def digitVal (c : Char) : Option Nat :=
  if c.isDigit then some (c.toNat - 48) else none

/-- Two decimal digits and the rest of the input. -/
def parse2 : List Char → Option (Nat × List Char)
  | a :: b :: rest =>
    match digitVal a, digitVal b with
    | some x, some y => some (10 * x + y, rest)
    | _, _ => none
  | _ => none

/-- Four decimal digits and the rest of the input. -/
def parse4 : List Char → Option (Nat × List Char)
  | a :: b :: c :: d :: rest =>
    match digitVal a, digitVal b, digitVal c, digitVal d with
    | some w, some x, some y, some z => some (1000 * w + 100 * x + 10 * y + z, rest)
    | _, _, _, _ => none
  | _ => none

/-- One expected literal character. -/
def expectChar (c : Char) : List Char → Option (List Char)
  | x :: rest => if x = c then some rest else none
  | [] => none

/-- Gregorian leap year rule, as chrono uses it. -/
def isLeapYear (y : Nat) : Bool :=
  (y % 4 == 0 && y % 100 != 0) || y % 400 == 0

/-- Days in a month of a given year. -/
def daysInMonth (y m : Nat) : Nat :=
  if m = 2 then (if isLeapYear y then 29 else 28)
  else if m = 4 ∨ m = 6 ∨ m = 9 ∨ m = 11 then 30
  else 31

/-- chrono NaiveDateTime::parse_from_str with the "%F %T" format string:
"YYYY-MM-DD HH:MM:SS" with calendar-valid fields, none on any mismatch. -/
def parseDateTime (s : String) : Option NaiveDateTime := do
  let cs := s.data
  let (y, cs) ← parse4 cs
  let cs ← expectChar '-' cs
  let (mo, cs) ← parse2 cs
  let cs ← expectChar '-' cs
  let (d, cs) ← parse2 cs
  let cs ← expectChar ' ' cs
  let (h, cs) ← parse2 cs
  let cs ← expectChar ':' cs
  let (mi, cs) ← parse2 cs
  let cs ← expectChar ':' cs
  let (sec, cs) ← parse2 cs
  if cs = [] ∧ 1 ≤ mo ∧ mo ≤ 12 ∧ 1 ≤ d ∧ d ≤ daysInMonth y mo ∧
      h < 24 ∧ mi < 60 ∧ sec < 60 then
    some ⟨y, mo, d, h, mi, sec⟩
  else
    none

/-- Decimal value of a non-empty all-digit character list, none otherwise. -/
def digitsVal (cs : List Char) : Option Nat :=
  if cs = [] then none
  else
    cs.foldl
      (fun acc c =>
        match acc, digitVal c with
        | some n, some d => some (10 * n + d)
        | _, _ => none)
      (some 0)

/-- Rust str::parse for u64: optional leading plus sign, then decimal
digits, rejecting values that overflow 64 bits. -/
def parseU64 (s : String) : Option Nat :=
  let cs :=
    match s.data with
    | '+' :: rest => rest
    | cs => cs
  match digitsVal cs with
  | some n => if n < 2 ^ 64 then some n else none
  | none => none

/-- proxy.rs Proxy: one validated proxy record. time_to_connect is the
connect time in whole seconds. -/
structure Proxy where
  socket : SocketAddrV4
  country : Country
  last_checked : NaiveDateTime
  level : Level
  protocol : Protocol
  time_to_connect : Nat
  supports : Supports
deriving DecidableEq

/-- proxy.rs RawProxy: the deserialised wire record, with last_checked and
speed still strings and the country already passed through
ignore_bad_countries. -/
structure RawProxy where
  socket : SocketAddrV4
  country : Country
  last_checked : String
  level : Level
  protocol : Protocol
  time_to_connect : String
  supports : RawSupports
deriving DecidableEq

/-- proxy.rs: impl From RawProxy for Proxy. The source panics when the
last_checked string does not parse with "%F %T" or the speed string does
not parse as u64; the panic is modelled as none. -/
def Proxy.fromRaw (raw : RawProxy) : Option Proxy :=
  match parseDateTime raw.last_checked with
  | none => none
  | some lc =>
    match parseU64 raw.time_to_connect with
    | none => none
    | some secs =>
      some
        { socket := raw.socket
          country := raw.country
          last_checked := lc
          level := raw.level
          protocol := raw.protocol
          time_to_connect := secs
          supports := Supports.fromRaw raw.supports }

/-- A RawProxy as it sits in the JSON body: the country is still the wire
string, every other field as in RawProxy. -/
structure WireProxy where
  socket : SocketAddrV4
  country : String
  last_checked : String
  level : Level
  protocol : Protocol
  time_to_connect : String
  supports : RawSupports
deriving DecidableEq

/-- serde field deserialisation of a wire record: the country field goes
through ignore_bad_countries. -/
def WireProxy.toRaw (w : WireProxy) : RawProxy :=
  { socket := w.socket
    country := ignore_bad_countries w.country
    last_checked := w.last_checked
    level := w.level
    protocol := w.protocol
    time_to_connect := w.time_to_connect
    supports := w.supports }

/-- proxy.rs proxies_from_json, from the already-tokenised record list:
convert every record (a panic in the conversion fails the whole batch,
modelled as none) then drop records whose country is Unspecified. -/
def proxies_from_json (records : List WireProxy) : Option (List Proxy) :=
  (records.mapM (fun w => Proxy.fromRaw w.toRaw)).map
    (List.filter (fun p => p.country != Country.unspecified))

/-- errors.rs ApiError: every error the API can surface. -/
inductive ApiError where
  | client (status : Nat) (text : String)
  | server (status : Nat) (text : String)
  | apiKey
  | rateLimit
  | dailyLimit
  | noProxy
  | unknown
deriving DecidableEq

/-- errors.rs INVALID_API_KEY literal. -/
def INVALID_API_KEY : String :=
  "Invalid API. Get your API to make unlimited requests at http://pubproxy.com/#premium"

/-- errors.rs RATE_LIMIT literal. The first source line ends in a
backslash continuation (the newline and indent vanish); the second does
not, so the literal keeps a newline and the 26-space indent before the
final URL line. -/
def RATE_LIMIT : String :=
  "We have to temporarily stop you. You\x27re requesting proxies a little too fast (2+ requests per second). Get your API to remove this limit at\n                          http://pubproxy.com/#premium"

/-- errors.rs DAILY_LIMIT literal (both source lines joined by a
backslash continuation). -/
def DAILY_LIMIT : String :=
  "You reached the maximum 50 requests for today. Get your API to make unlimited requests at http://pubproxy.com/#premium"

/-- errors.rs NO_PROXY literal. -/
def NO_PROXY : String := "No proxy"

/-- errors.rs: impl From String for ApiError — the four known literal
bodies map to their named variants, anything else to Unknown. -/
def ApiError.fromText (s : String) : ApiError :=
  if s = INVALID_API_KEY then .apiKey
  else if s = RATE_LIMIT then .rateLimit
  else if s = DAILY_LIMIT then .dailyLimit
  else if s = NO_PROXY then .noProxy
  else .unknown

/-- types.rs NaiveResponse: status code and body text of a response. -/
structure NaiveResponse where
  status : Nat
  text : String
deriving DecidableEq

/-- types.rs NaiveResponse::ok — true for a 2xx status. -/
def NaiveResponse.ok (r : NaiveResponse) : Bool :=
  200 ≤ r.status && r.status < 300

/-- errors.rs: impl From NaiveResponse for ApiError. The text is matched
first; an unrecognised text with a status outside 400..600 hits the
source's unreachable! panic, modelled as none. -/
def ApiError.fromNaiveResponse (r : NaiveResponse) : Option ApiError :=
  match ApiError.fromText r.text with
  | .unknown =>
    if 400 ≤ r.status && r.status < 500 then some (.client r.status r.text)
    else if 500 ≤ r.status && r.status < 600 then some (.server r.status r.text)
    else none
  | e => some e

/-- types.rs Countries: allow list or block list of comma-joined codes. -/
inductive Countries where
  | allowList (codes : String)
  | blockList (codes : String)
deriving DecidableEq

/-- opts.rs Format: the only body format the library requests. -/
inductive Format where
  | json
deriving DecidableEq

/-- opts.rs Limit: records per call, Free = 5 and Premium = 20 (the
serde_repr numeric values of the two variants). -/
inductive Limit where
  | free
  | premium
deriving DecidableEq

/-- The numeric page size a Limit serialises to. -/
def Limit.val : Limit → Nat
  | .free => 5
  | .premium => 20

/-- opts.rs Opts: the finalised, immutable request parameters. Durations
already mapped to the numerals the wire uses (minutes for last_checked,
seconds for time_to_connect). -/
structure Opts where
  api_key : Option String
  level : Option Level
  protocol : Option Protocol
  countries : Option Countries
  last_checked : Option Nat
  port : Option Nat
  time_to_connect : Option Nat
  cookies : Option Bool
  connects_to_google : Option Bool
  https : Option Bool
  post : Option Bool
  referer : Option Bool
  forwards_user_agent : Option Bool
  limit : Limit
  format : Format
deriving DecidableEq

/-- opts.rs Opts::new: last_checked seconds become minutes,
time_to_connect stays in seconds, and limit is Premium exactly when an
api_key is present. Durations are taken in seconds. -/
def Opts.new (api_key : Option String) (level : Option Level)
    (protocol : Option Protocol) (countries : Option Countries)
    (last_checked : Option Nat) (port : Option Nat)
    (time_to_connect : Option Nat) (cookies : Option Bool)
    (connects_to_google : Option Bool) (https : Option Bool)
    (post : Option Bool) (referer : Option Bool)
    (forwards_user_agent : Option Bool) : Opts :=
  { api_key := api_key
    level := level
    protocol := protocol
    countries := countries
    last_checked := last_checked.map (fun secs => secs / 60)
    port := port
    time_to_connect := time_to_connect.map (fun secs => secs)
    cookies := cookies
    connects_to_google := connects_to_google
    https := https
    post := post
    referer := referer
    forwards_user_agent := forwards_user_agent
    limit := match api_key with
      | some _ => .premium
      | none => .free
    format := .json }

/-- opts.rs: derived Default for Opts — every optional field absent,
Limit::Free, Format::Json (the same record Opts::new gives on all-none
input). -/
def Opts.default : Opts :=
  Opts.new none none none none none none none none none none none none none

/-- Modelled from the spec: Opts::is_premium, whose definition is not in
the provided sources (only its caller in fetcher.rs is). The spec states
that is_premium is true iff a credential was supplied. -/
def Opts.is_premium (o : Opts) : Bool :=
  o.api_key.isSome

/-- The shared pacing state: the current instant and the stored
last-fetched instant (fetcher.rs LAST_FETCHED), both in milliseconds. -/
structure ClockState where
  now : Nat
  lastFetched : Nat
deriving DecidableEq

/-- Whether the mutex around the shared timestamp was poisoned by a prior
holder that terminated abnormally. -/
inductive LockState where
  | clean
  | poisoned
deriving DecidableEq

/-- fetcher.rs try_get, the LAST_FETCHED.lock() match: a clean lock hands
the stored timestamp over unchanged; a poisoned one is recovered by
resetting the stored timestamp to the current instant. -/
def acquireClock (lock : LockState) (clock : ClockState) : ClockState :=
  match lock with
  | .clean => clock
  | .poisoned => { clock with lastFetched := clock.now }

/-- fetcher.rs try_get, the delay step of the keyless loop: elapsed time
since the stored timestamp is computed, the thread sleeps for the
remainder of DELAY when the elapsed time is shorter, and the request
starts right after. The value is the start instant of the request. -/
def requestStart (clock : ClockState) : Nat :=
  if clock.now - clock.lastFetched < DELAY then
    clock.now + (DELAY - (clock.now - clock.lastFetched))
  else
    clock.now

/-- One scripted outcome of Fetcher::fetch: a page of proxies or an API
error, each taking dur milliseconds of wall-clock time. -/
inductive FetchStep where
  | page (proxies : List Proxy) (dur : Nat)
  | fail (e : ApiError) (dur : Nat)
deriving DecidableEq

/-- How a fill loop ended: satisfied, aborted by an error, or the script
ran out before the buffer was satisfied (model fuel, no code analogue). -/
inductive LoopTag where
  | done
  | failed (e : ApiError)
  | starved
deriving DecidableEq

/-- Result of a fill loop: its tag, the buffer, the clock, the start
instants of the remote calls it issued, each tagged with whether the call
succeeded, and the number of remote calls. -/
structure LoopResult where
  tag : LoopTag
  buf : List Proxy
  clock : ClockState
  events : List (Nat × Bool)
  calls : Nat
deriving DecidableEq

/-- fetcher.rs try_get, the keyless fill loop: while the buffer holds
fewer than amount records, wait out the delay, issue one request, and on
success append the page and set the stored timestamp to the instant the
fetch returned; an error aborts the loop at once, leaving the stored
timestamp untouched (the update line sits after the early return). -/
def pacedLoop (amount : Nat) :
    List Proxy → ClockState → List FetchStep → LoopResult
  | buf, clock, [] =>
    if amount ≤ buf.length then ⟨.done, buf, clock, [], 0⟩
    else ⟨.starved, buf, clock, [], 0⟩
  | buf, clock, .fail e d :: _ =>
    if amount ≤ buf.length then ⟨.done, buf, clock, [], 0⟩
    else
      let start := requestStart clock
      ⟨.failed e, buf, ⟨start + d, clock.lastFetched⟩, [(start, false)], 1⟩
  | buf, clock, .page p d :: rest =>
    if amount ≤ buf.length then ⟨.done, buf, clock, [], 0⟩
    else
      let start := requestStart clock
      let r := pacedLoop amount (buf ++ p) ⟨start + d, start + d⟩ rest
      { r with events := (start, true) :: r.events, calls := r.calls + 1 }

/-- fetcher.rs try_get, the premium fill loop: no delays and no contact
with the shared clock; requests are issued until the buffer is satisfied
or one fails. Request instants are not tracked (the claim tracks only
keyless pacing), only the call count. -/
def premiumLoop (amount : Nat) :
    List Proxy → ClockState → List FetchStep → LoopResult
  | buf, clock, [] =>
    if amount ≤ buf.length then ⟨.done, buf, clock, [], 0⟩
    else ⟨.starved, buf, clock, [], 0⟩
  | buf, clock, .fail e _ :: _ =>
    if amount ≤ buf.length then ⟨.done, buf, clock, [], 0⟩
    else ⟨.failed e, buf, clock, [], 1⟩
  | buf, clock, .page p _ :: rest =>
    if amount ≤ buf.length then ⟨.done, buf, clock, [], 0⟩
    else
      let r := premiumLoop amount (buf ++ p) clock rest
      { r with calls := r.calls + 1 }

/-- fetcher.rs Fetcher: the finalised options and the local buffer. -/
structure Fetcher where
  opts : Opts
  proxies : List Proxy
deriving DecidableEq

/-- fetcher.rs Fetcher::new. -/
def Fetcher.new (opts : Opts) : Fetcher :=
  ⟨opts, []⟩

/-- fetcher.rs: impl Default for Fetcher. -/
def Fetcher.default : Fetcher :=
  Fetcher.new Opts.default

/-- Outcome of try_get: the Ok record list, the Err ApiError, or the
model's out-of-script marker. -/
inductive TryGetOut where
  | ok (proxies : List Proxy)
  | fail (e : ApiError)
  | outOfScript
deriving DecidableEq

/-- Everything observable about one try_get call: its return value, the
fetcher afterwards, the shared clock afterwards, the tagged start instants
of the keyless remote calls it made, and how many remote calls it made. -/
structure TryGetResult where
  result : TryGetOut
  fetcher : Fetcher
  clock : ClockState
  events : List (Nat × Bool)
  calls : Nat
deriving DecidableEq

/-- fetcher.rs try_get, the else branch's loop choice: the premium loop
when an api key is present, otherwise the keyless loop after acquiring
the shared clock (recovering it if poisoned). -/
def loopOf (f : Fetcher) (amount : Nat) (clock : ClockState)
    (lock : LockState) (script : List FetchStep) : LoopResult :=
  if f.opts.is_premium then premiumLoop amount f.proxies clock script
  else pacedLoop amount f.proxies (acquireClock lock clock) script

/-- fetcher.rs Fetcher::try_get. A buffer already holding amount records
is split without touching the lock or the network; otherwise the premium
or the keyless fill loop runs (the keyless one after acquiring the shared
clock, recovering it if poisoned) and the filled buffer is split.
split_off(len - amount) returns the tail of length amount and keeps the
head in the buffer. -/
def Fetcher.try_get (f : Fetcher) (amount : Nat) (clock : ClockState)
    (lock : LockState) (script : List FetchStep) : TryGetResult :=
  if amount ≤ f.proxies.length then
    { result := .ok (f.proxies.drop (f.proxies.length - amount))
      fetcher := { f with proxies := f.proxies.take (f.proxies.length - amount) }
      clock := clock
      events := []
      calls := 0 }
  else
    let r := loopOf f amount clock lock script
    { result :=
        match r.tag with
        | .done => .ok (r.buf.drop (r.buf.length - amount))
        | .failed e => .fail e
        | .starved => .outOfScript
      fetcher :=
        { f with
          proxies :=
            match r.tag with
            | .done => r.buf.take (r.buf.length - amount)
            | .failed _ => r.buf
            | .starved => r.buf }
      clock := r.clock
      events := r.events
      calls := r.calls }

/-- fetcher.rs Fetcher::drain: consume the fetcher, returning the buffer. -/
def Fetcher.drain (f : Fetcher) : List Proxy :=
  f.proxies

/-- fetcher.rs LAST_FETCHED: the shared timestamp is created already DELAY
in the past. -/
def lastFetchedInit (now : Nat) : Nat :=
  now - DELAY

/-- lib.rs Session: owner of the shared last-fetched timestamp. -/
structure Session where
  lastFetched : Nat
deriving DecidableEq

/-- lib.rs Session::new: stores Instant::now(), with no DELAY subtracted. -/
def Session.new (now : Nat) : Session :=
  ⟨now⟩

/-- One try_get call of a session-level run: which fetcher state makes the
call (its own buffer and options), how much it asks for, the idle time
since the previous call finished, the state the shared lock is found in,
and the scripted fetch outcomes. -/
structure SessionCall where
  fetcher : Fetcher
  amount : Nat
  gap : Nat
  lock : LockState
  script : List FetchStep
deriving DecidableEq

/-- A serialized sequence of try_get calls against one shared clock: each
call sees the clock the previous call left, with its idle gap added to the
current instant, and contributes its request-start events in order. -/
def runSession (clock : ClockState) : List SessionCall → ClockState × List (Nat × Bool)
  | [] => (clock, [])
  | c :: cs =>
    let r := c.fetcher.try_get c.amount ⟨clock.now + c.gap, clock.lastFetched⟩ c.lock c.script
    let rest := runSession r.clock cs
    (rest.1, r.events ++ rest.2)

/-- Helper for stating claims about aborted fill loops: the pages of the
successful fetches that precede the first failing one. -/
def pagesBeforeFail : List FetchStep → List (List Proxy)
  | [] => []
  | .page p _ :: rest => p :: pagesBeforeFail rest
  | .fail _ _ :: _ => []

/-- Helper for stating claims about aborted fill loops: the error of the
first failing fetch, none when every scripted fetch succeeds. -/
def firstFail : List FetchStep → Option ApiError
  | [] => none
  | .page _ _ :: rest => firstFail rest
  | .fail e _ :: _ => some e

/-- The pacing relation between two adjacent tagged request events: a
successful call is followed no sooner than DELAY after its start. -/
def succGap (a b : Nat × Bool) : Prop :=
  a.2 = true → a.1 + DELAY ≤ b.1

/-- Whether a scripted fetch is a successful page of exactly L records. -/
def pageLenIs (L : Nat) : FetchStep → Bool
  | .page p _ => p.length == L
  | .fail _ _ => false

/-- Sample proxy record, mirroring the mock record the fetcher.rs test
build returns. -/
def sampleProxy : Proxy :=
  { socket := ⟨16909060, 4321⟩
    country := .known "CA"
    last_checked := ⟨2020, 1, 1, 1, 1, 1⟩
    level := .anonymous
    protocol := .http
    time_to_connect := 21
    supports := Supports.default }

/-- A page of five sample records: one keyless page. -/
def samplePage : List Proxy :=
  List.replicate 5 sampleProxy

/-- A keyless fetcher holding two buffered records. -/
def demoFetcher : Fetcher :=
  ⟨Opts.default, [sampleProxy, sampleProxy]⟩

/-- Two keyless calls whose scripted fetches all succeed. -/
def demoCalls : List SessionCall :=
  [⟨Fetcher.default, 1, 0, .clean, [.page samplePage 7]⟩,
   ⟨Fetcher.default, 2, 3, .clean, [.page samplePage 4]⟩]

/-- A session run refuting unconditional DELAY spacing: the first keyless
call's fetch fails 5 ms into it (the stored timestamp stays stale), and a
retry issued right after starts only 5 ms after the failed call. -/
def cexCalls : List SessionCall :=
  [⟨Fetcher.default, 1, 0, .clean, [.fail .rateLimit 5]⟩,
   ⟨Fetcher.default, 1, 0, .clean, [.page [sampleProxy] 3]⟩]

/-- The clock the counterexample run starts from: the session is DELAY
old and no request has been made yet. -/
def cexClock : ClockState :=
  ⟨DELAY, 0⟩

/-- A raw record whose last_checked string is not in the expected
timestamp format. -/
def rawBadDate : RawProxy :=
  { socket := ⟨0, 0⟩
    country := .known "US"
    last_checked := "bad"
    level := .anonymous
    protocol := .http
    time_to_connect := "7"
    supports := ⟨none, none, none, none, none, none, none⟩ }

set_option maxRecDepth 8192 in
/-- C2: the three classification clauses that hold are stated over all
status codes (each known literal body maps to its named variant whatever
the status; other 4xx bodies map to Client and other 5xx bodies to Server
with status and text preserved), and the failing clause is evaluated at
the failing input: a 2xx response whose body fails JSON parsing and
matches no known message hits the source's unreachable! panic (none)
instead of returning ApiError::Unknown to the caller. -/
theorem c2_success_unknown_body_panics :
    (∀ status : Nat,
        ApiError.fromNaiveResponse ⟨status, INVALID_API_KEY⟩ = some .apiKey ∧
        ApiError.fromNaiveResponse ⟨status, RATE_LIMIT⟩ = some .rateLimit ∧
        ApiError.fromNaiveResponse ⟨status, DAILY_LIMIT⟩ = some .dailyLimit ∧
        ApiError.fromNaiveResponse ⟨status, NO_PROXY⟩ = some .noProxy) ∧
    (∀ (status : Nat) (text : String),
        ApiError.fromText text = .unknown → 400 ≤ status → status < 500 →
        ApiError.fromNaiveResponse ⟨status, text⟩ = some (.client status text)) ∧
    (∀ (status : Nat) (text : String),
        ApiError.fromText text = .unknown → 500 ≤ status → status < 600 →
        ApiError.fromNaiveResponse ⟨status, text⟩ = some (.server status text)) ∧
    NaiveResponse.ok ⟨200, "<html>unexpected</html>"⟩ = true ∧
    ApiError.fromText "<html>unexpected</html>" = ApiError.unknown ∧
    ApiError.fromNaiveResponse ⟨200, "<html>unexpected</html>"⟩ = none := by
  refine ⟨fun status => ⟨rfl, rfl, rfl, rfl⟩, ?_, ?_, by decide, by decide, by decide⟩
  · intro status text ht h1 h2
    unfold ApiError.fromNaiveResponse
    rw [ht]
    rw [if_pos (by simp only [Bool.and_eq_true, decide_eq_true_eq]; exact ⟨h1, h2⟩)]
  · intro status text ht h1 h2
    unfold ApiError.fromNaiveResponse
    rw [ht]
    rw [if_neg (by simp only [Bool.and_eq_true, decide_eq_true_eq]; omega),
      if_pos (by simp only [Bool.and_eq_true, decide_eq_true_eq]; exact ⟨h1, h2⟩)]

/-- C3: when the buffer already holds amount records, try_get returns Ok
with exactly the last amount buffered records, issues no remote call,
leaves the shared clock untouched, and keeps exactly the other
length - amount records buffered. -/
theorem c3_buffer_sufficiency (f : Fetcher) (amount : Nat) (clock : ClockState)
    (lock : LockState) (script : List FetchStep)
    (h : amount ≤ f.proxies.length) :
    (f.try_get amount clock lock script).result
      = TryGetOut.ok (f.proxies.drop (f.proxies.length - amount)) ∧
    (f.proxies.drop (f.proxies.length - amount)).length = amount ∧
    (f.try_get amount clock lock script).fetcher.proxies
      = f.proxies.take (f.proxies.length - amount) ∧
    (f.try_get amount clock lock script).fetcher.proxies
        ++ f.proxies.drop (f.proxies.length - amount) = f.proxies ∧
    (f.try_get amount clock lock script).fetcher.proxies.length
      = f.proxies.length - amount ∧
    (f.try_get amount clock lock script).clock = clock ∧
    (f.try_get amount clock lock script).events = [] ∧
    (f.try_get amount clock lock script).calls = 0 := by
  unfold Fetcher.try_get
  rw [if_pos h]
  refine ⟨rfl, ?_, rfl, List.take_append_drop _ _, ?_, rfl, rfl, rfl⟩
  · rw [List.length_drop]; omega
  · rw [List.length_take]; omega

/-- C3 witness: a fetcher holding two records serves one without any
remote call. -/
theorem c3_buffer_sufficiency_w :
    (demoFetcher.try_get 1 ⟨0, 0⟩ .clean []).result = TryGetOut.ok [sampleProxy] ∧
    (demoFetcher.try_get 1 ⟨0, 0⟩ .clean []).calls = 0 := by
  have h := c3_buffer_sufficiency demoFetcher 1 ⟨0, 0⟩ .clean [] (by decide)
  exact ⟨h.1.trans (by decide), h.2.2.2.2.2.2.2⟩

/-- C5: a try_get that finds the shared clock poisoned does not propagate
the failure — it resets the stored timestamp to the current instant and
then behaves exactly as a call that found a clean clock storing that
instant. -/
theorem c5_poisoned_lock_recovery (f : Fetcher) (amount : Nat) (now stale : Nat)
    (script : List FetchStep)
    (h1 : f.opts.is_premium = false) (h2 : f.proxies.length < amount) :
    f.try_get amount ⟨now, stale⟩ .poisoned script
      = f.try_get amount ⟨now, now⟩ .clean script ∧
    (acquireClock .poisoned ⟨now, stale⟩).lastFetched = now := by
  refine ⟨?_, rfl⟩
  unfold Fetcher.try_get
  have hnot : ¬ (amount ≤ f.proxies.length) := by omega
  rw [if_neg hnot, if_neg hnot]
  simp [loopOf, h1, acquireClock]

/-- C5 witness: with the default keyless fetcher asking for one record,
the poisoned-lock call equals the clean call whose clock was reset. -/
theorem c5_poisoned_lock_recovery_w :
    Fetcher.default.try_get 1 ⟨2200, 0⟩ .poisoned [.page samplePage 7]
      = Fetcher.default.try_get 1 ⟨2200, 2200⟩ .clean [.page samplePage 7] :=
  (c5_poisoned_lock_recovery Fetcher.default 1 2200 0 [.page samplePage 7]
    (by decide) (by decide)).1

/-- C8: the shared timestamp of fetcher.rs (LAST_FETCHED) is created
already DELAY in the past, so the first request under it starts with no
artificial delay; the draft Session::new of lib.rs instead stores the bare
current instant, under which the first request would be pushed a full
DELAY into the future. -/
theorem c8_clock_init_eval :
    lastFetchedInit 5000000 = 5000000 - DELAY ∧
    (Session.new 5000000).lastFetched = 5000000 ∧
    (Session.new 5000000).lastFetched ≠ lastFetchedInit 5000000 ∧
    requestStart ⟨5000000, lastFetchedInit 5000000⟩ = 5000000 ∧
    requestStart ⟨5000000, (Session.new 5000000).lastFetched⟩ = 5000000 + DELAY := by
  refine ⟨rfl, rfl, by decide, by decide, by decide⟩

/-- C9: the parse-and-validate step never lets a record whose country is
the Unspecified sentinel through to the buffer, and a country code that
fails to deserialise is substituted with the sentinel instead of failing
the batch. -/
theorem c9_country_filtering :
    (∀ (records : List WireProxy) (out : List Proxy),
        proxies_from_json records = some out →
        ∀ p ∈ out, p.country ≠ Country.unspecified) ∧
    (∀ s : String, deserializeCountry s = none →
        ignore_bad_countries s = Country.unspecified) := by
  constructor
  · intro records out h p hp
    unfold proxies_from_json at h
    cases hm : records.mapM (fun w => Proxy.fromRaw w.toRaw) with
    | none => rw [hm] at h; exact absurd h (by simp)
    | some l =>
      rw [hm] at h
      simp only [Option.map_some'] at h
      cases h
      have hmem := List.of_mem_filter hp
      simpa [bne_iff_ne] using hmem
  · intro s h
    unfold ignore_bad_countries
    rw [h]
    rfl

/-- C9 witness: an unrecognised code becomes the sentinel. -/
theorem c9_country_filtering_w :
    ignore_bad_countries "ZZ" = Country.unspecified :=
  c9_country_filtering.2 "ZZ" (by decide)

/-- C10: the raw-to-Proxy conversion panics (none) exactly when the
last_checked string does not parse in the timestamp format or the speed
string does not parse as a 64-bit unsigned integer — so it is total
precisely under the well-formedness precondition — and a capability flag
is true iff its raw field is present and exactly 1, absent meaning false. -/
theorem c10_partial_conversion :
    (∀ raw : RawProxy,
        Proxy.fromRaw raw = none ↔
          parseDateTime raw.last_checked = none ∨
            parseU64 raw.time_to_connect = none) ∧
    (∀ v : Nat, parse_field (some v) = true ↔ v = 1) ∧
    parse_field none = false := by
  refine ⟨?_, ?_, rfl⟩
  · intro raw
    unfold Proxy.fromRaw
    cases hdt : parseDateTime raw.last_checked <;>
      cases hu : parseU64 raw.time_to_connect <;> simp [hdt, hu]
  · intro v
    simp [parse_field]

/-- C10 witness: a record with a malformed timestamp makes the conversion
panic. -/
theorem c10_partial_conversion_w :
    Proxy.fromRaw rawBadDate = none :=
  (c10_partial_conversion.1 rawBadDate).mpr (Or.inl (by decide))

/-- With a buffer short of amount, try_get hands every observable field
through from the fill loop the options select. -/
theorem try_get_decomp (f : Fetcher) (amount : Nat) (clock : ClockState)
    (lock : LockState) (script : List FetchStep)
    (hb : ¬ (amount ≤ f.proxies.length)) :
    (f.try_get amount clock lock script).clock = (loopOf f amount clock lock script).clock ∧
    (f.try_get amount clock lock script).events = (loopOf f amount clock lock script).events ∧
    (f.try_get amount clock lock script).calls = (loopOf f amount clock lock script).calls ∧
    (f.try_get amount clock lock script).fetcher.opts = f.opts ∧
    ((f.try_get amount clock lock script).result =
      match (loopOf f amount clock lock script).tag with
      | .done =>
        TryGetOut.ok ((loopOf f amount clock lock script).buf.drop
          ((loopOf f amount clock lock script).buf.length - amount))
      | .failed e => TryGetOut.fail e
      | .starved => TryGetOut.outOfScript) ∧
    ((f.try_get amount clock lock script).fetcher.proxies =
      match (loopOf f amount clock lock script).tag with
      | .done =>
        (loopOf f amount clock lock script).buf.take
          ((loopOf f amount clock lock script).buf.length - amount)
      | .failed _ => (loopOf f amount clock lock script).buf
      | .starved => (loopOf f amount clock lock script).buf) := by
  simp [Fetcher.try_get, if_neg hb]

/-- A failed keyless fill loop returns the first scripted error and ends
with its buffer equal to the entry buffer followed by every page fetched
before that error. -/
theorem pacedLoop_failed_spec (amount : Nat) :
    ∀ (script : List FetchStep) (buf : List Proxy) (clock : ClockState) (e : ApiError),
      (pacedLoop amount buf clock script).tag = .failed e →
      (pacedLoop amount buf clock script).buf = buf ++ (pagesBeforeFail script).flatten ∧
      firstFail script = some e := by
  intro script
  induction script with
  | nil =>
    intro buf clock e h
    simp only [pacedLoop] at h
    split at h <;> simp_all
  | cons step rest ih =>
    intro buf clock e h
    cases step with
    | fail e' d =>
      simp only [pacedLoop] at h ⊢
      split at h
      · simp_all
      · next hc =>
        rw [if_neg hc]
        simp only [LoopTag.failed.injEq] at h
        simp [pagesBeforeFail, firstFail, h]
    | page p d =>
      simp only [pacedLoop] at h ⊢
      split at h
      · simp_all
      · next hc =>
        rw [if_neg hc]
        obtain ⟨ih1, ih2⟩ := ih (buf ++ p) _ e h
        simp [pagesBeforeFail, firstFail, ih1, ih2, List.append_assoc]

/-- A failed premium fill loop returns the first scripted error and ends
with its buffer equal to the entry buffer followed by every page fetched
before that error. -/
theorem premiumLoop_failed_spec (amount : Nat) :
    ∀ (script : List FetchStep) (buf : List Proxy) (clock : ClockState) (e : ApiError),
      (premiumLoop amount buf clock script).tag = .failed e →
      (premiumLoop amount buf clock script).buf = buf ++ (pagesBeforeFail script).flatten ∧
      firstFail script = some e := by
  intro script
  induction script with
  | nil =>
    intro buf clock e h
    simp only [premiumLoop] at h
    split at h <;> simp_all
  | cons step rest ih =>
    intro buf clock e h
    cases step with
    | fail e' d =>
      simp only [premiumLoop] at h ⊢
      split at h
      · simp_all
      · next hc =>
        rw [if_neg hc]
        simp only [LoopTag.failed.injEq] at h
        simp [pagesBeforeFail, firstFail, h]
    | page p d =>
      simp only [premiumLoop] at h ⊢
      split at h
      · simp_all
      · next hc =>
        rw [if_neg hc]
        obtain ⟨ih1, ih2⟩ := ih (buf ++ p) clock e h
        simp [pagesBeforeFail, firstFail, ih1, ih2, List.append_assoc]

/-- A satisfied keyless fill loop covered the request and consumed some
error-free script head, appending exactly those pages. -/
theorem pacedLoop_done_spec (amount : Nat) :
    ∀ (script : List FetchStep) (buf : List Proxy) (clock : ClockState),
      (pacedLoop amount buf clock script).tag = .done →
      amount ≤ (pacedLoop amount buf clock script).buf.length ∧
      ∃ n, n ≤ script.length ∧ firstFail (script.take n) = none ∧
        (pacedLoop amount buf clock script).buf
          = buf ++ (pagesBeforeFail (script.take n)).flatten := by
  intro script
  induction script with
  | nil =>
    intro buf clock h
    simp only [pacedLoop] at h ⊢
    split at h
    · next hc =>
      rw [if_pos hc]
      exact ⟨hc, 0, by simp [firstFail, pagesBeforeFail]⟩
    · simp_all
  | cons step rest ih =>
    intro buf clock h
    cases step with
    | fail e' d =>
      simp only [pacedLoop] at h ⊢
      split at h
      · next hc =>
        rw [if_pos hc]
        exact ⟨hc, 0, by simp [firstFail, pagesBeforeFail]⟩
      · simp_all
    | page p d =>
      simp only [pacedLoop] at h ⊢
      split at h
      · next hc =>
        rw [if_pos hc]
        exact ⟨hc, 0, by simp [firstFail, pagesBeforeFail]⟩
      · next hc =>
        rw [if_neg hc]
        obtain ⟨hlen, n, hn, hff, hbuf⟩ := ih (buf ++ p) _ h
        refine ⟨hlen, n + 1, by simpa using hn, ?_, ?_⟩
        · simpa [List.take_succ_cons, firstFail] using hff
        · simp [List.take_succ_cons, pagesBeforeFail, hbuf, List.append_assoc]

/-- A satisfied premium fill loop covered the request and consumed some
error-free script head, appending exactly those pages. -/
theorem premiumLoop_done_spec (amount : Nat) :
    ∀ (script : List FetchStep) (buf : List Proxy) (clock : ClockState),
      (premiumLoop amount buf clock script).tag = .done →
      amount ≤ (premiumLoop amount buf clock script).buf.length ∧
      ∃ n, n ≤ script.length ∧ firstFail (script.take n) = none ∧
        (premiumLoop amount buf clock script).buf
          = buf ++ (pagesBeforeFail (script.take n)).flatten := by
  intro script
  induction script with
  | nil =>
    intro buf clock h
    simp only [premiumLoop] at h ⊢
    split at h
    · next hc =>
      rw [if_pos hc]
      exact ⟨hc, 0, by simp [firstFail, pagesBeforeFail]⟩
    · simp_all
  | cons step rest ih =>
    intro buf clock h
    cases step with
    | fail e' d =>
      simp only [premiumLoop] at h ⊢
      split at h
      · next hc =>
        rw [if_pos hc]
        exact ⟨hc, 0, by simp [firstFail, pagesBeforeFail]⟩
      · simp_all
    | page p d =>
      simp only [premiumLoop] at h ⊢
      split at h
      · next hc =>
        rw [if_pos hc]
        exact ⟨hc, 0, by simp [firstFail, pagesBeforeFail]⟩
      · next hc =>
        rw [if_neg hc]
        obtain ⟨hlen, n, hn, hff, hbuf⟩ := ih (buf ++ p) clock h
        refine ⟨hlen, n + 1, by simpa using hn, ?_, ?_⟩
        · simpa [List.take_succ_cons, firstFail] using hff
        · simp [List.take_succ_cons, pagesBeforeFail, hbuf, List.append_assoc]

/-- The premium loop never touches the shared clock and records no paced
events. -/
theorem premiumLoop_static (amount : Nat) :
    ∀ (script : List FetchStep) (buf : List Proxy) (clock : ClockState),
      (premiumLoop amount buf clock script).clock = clock ∧
      (premiumLoop amount buf clock script).events = [] := by
  intro script
  induction script with
  | nil =>
    intro buf clock
    simp only [premiumLoop]
    split <;> simp
  | cons step rest ih =>
    intro buf clock
    cases step with
    | fail e d =>
      simp only [premiumLoop]
      split <;> simp
    | page p d =>
      simp only [premiumLoop]
      split
      · simp
      · simpa using ih (buf ++ p) clock

/-- One step of the ceiling-division recurrence the fill loops satisfy. -/
theorem ceil_div_step (a L : Nat) (ha : 0 < a) (hL : 0 < L) :
    (a + L - 1) / L = (a - L + L - 1) / L + 1 := by
  rcases le_or_lt a L with h | h
  · rw [show a - L + L - 1 = L - 1 from by omega,
      show a + L - 1 = (a - 1) + L from by omega,
      Nat.add_div_right _ hL,
      Nat.div_eq_of_lt (show a - 1 < L from by omega),
      Nat.div_eq_of_lt (show L - 1 < L from by omega)]
  · rw [show a - L + L - 1 = a - 1 from by omega,
      show a + L - 1 = (a - 1) + L from by omega,
      Nat.add_div_right _ hL]

/-- When every scripted fetch returns a full page of L records, a
satisfied keyless loop issues exactly the ceiling of the missing amount
over L remote calls. -/
theorem pacedLoop_calls_spec (amount L : Nat) (hL : 0 < L) :
    ∀ (script : List FetchStep) (buf : List Proxy) (clock : ClockState),
      (∀ s ∈ script, pageLenIs L s = true) →
      (pacedLoop amount buf clock script).tag = .done →
      (pacedLoop amount buf clock script).calls
        = (amount - buf.length + L - 1) / L := by
  intro script
  induction script with
  | nil =>
    intro buf clock _ h
    simp only [pacedLoop] at h ⊢
    split at h
    · next hc =>
      rw [if_pos hc, show amount - buf.length + L - 1 = L - 1 from by omega,
        Nat.div_eq_of_lt (by omega)]
    · simp_all
  | cons step rest ih =>
    intro buf clock hs h
    cases step with
    | fail e d =>
      have : pageLenIs L (.fail e d) = true := hs _ (by simp)
      simp [pageLenIs] at this
    | page p d =>
      have hp : p.length = L := by
        have := hs _ (List.mem_cons_self _ _)
        simpa [pageLenIs] using this
      have hrest : ∀ s ∈ rest, pageLenIs L s = true :=
        fun s hmem => hs s (List.mem_cons_of_mem _ hmem)
      simp only [pacedLoop] at h ⊢
      split at h
      · next hc =>
        rw [if_pos hc, show amount - buf.length + L - 1 = L - 1 from by omega,
          Nat.div_eq_of_lt (by omega)]
      · next hc =>
        rw [if_neg hc]
        have hrec := ih (buf ++ p) ⟨requestStart clock + d, requestStart clock + d⟩ hrest h
        simp only [List.length_append, hp] at hrec
        simp only [hrec]
        rw [show amount - (buf.length + L) = amount - buf.length - L from by omega]
        exact (ceil_div_step (amount - buf.length) L (by omega) hL).symm

/-- When every scripted fetch returns a full page of L records, a
satisfied premium loop issues exactly the ceiling of the missing amount
over L remote calls. -/
theorem premiumLoop_calls_spec (amount L : Nat) (hL : 0 < L) :
    ∀ (script : List FetchStep) (buf : List Proxy) (clock : ClockState),
      (∀ s ∈ script, pageLenIs L s = true) →
      (premiumLoop amount buf clock script).tag = .done →
      (premiumLoop amount buf clock script).calls
        = (amount - buf.length + L - 1) / L := by
  intro script
  induction script with
  | nil =>
    intro buf clock _ h
    simp only [premiumLoop] at h ⊢
    split at h
    · next hc =>
      rw [if_pos hc, show amount - buf.length + L - 1 = L - 1 from by omega,
        Nat.div_eq_of_lt (by omega)]
    · simp_all
  | cons step rest ih =>
    intro buf clock hs h
    cases step with
    | fail e d =>
      have : pageLenIs L (.fail e d) = true := hs _ (by simp)
      simp [pageLenIs] at this
    | page p d =>
      have hp : p.length = L := by
        have := hs _ (List.mem_cons_self _ _)
        simpa [pageLenIs] using this
      have hrest : ∀ s ∈ rest, pageLenIs L s = true :=
        fun s hmem => hs s (List.mem_cons_of_mem _ hmem)
      simp only [premiumLoop] at h ⊢
      split at h
      · next hc =>
        rw [if_pos hc, show amount - buf.length + L - 1 = L - 1 from by omega,
          Nat.div_eq_of_lt (by omega)]
      · next hc =>
        rw [if_neg hc]
        have hrec := ih (buf ++ p) clock hrest h
        simp only [List.length_append, hp] at hrec
        simp only [hrec]
        rw [show amount - (buf.length + L) = amount - buf.length - L from by omega]
        exact (ceil_div_step (amount - buf.length) L (by omega) hL).symm

/-- Failure facts carried from either fill loop to the loop choice. -/
theorem loopOf_failed_spec (f : Fetcher) (amount : Nat) (clock : ClockState)
    (lock : LockState) (script : List FetchStep) (e : ApiError)
    (h : (loopOf f amount clock lock script).tag = .failed e) :
    (loopOf f amount clock lock script).buf
      = f.proxies ++ (pagesBeforeFail script).flatten ∧
    firstFail script = some e := by
  unfold loopOf at h ⊢
  by_cases hpm : f.opts.is_premium
  · rw [if_pos hpm] at h ⊢
    exact premiumLoop_failed_spec amount script f.proxies clock e h
  · rw [if_neg hpm] at h ⊢
    exact pacedLoop_failed_spec amount script f.proxies _ e h

/-- Satisfaction facts carried from either fill loop to the loop choice. -/
theorem loopOf_done_spec (f : Fetcher) (amount : Nat) (clock : ClockState)
    (lock : LockState) (script : List FetchStep)
    (h : (loopOf f amount clock lock script).tag = .done) :
    amount ≤ (loopOf f amount clock lock script).buf.length ∧
    ∃ n, n ≤ script.length ∧ firstFail (script.take n) = none ∧
      (loopOf f amount clock lock script).buf
        = f.proxies ++ (pagesBeforeFail (script.take n)).flatten := by
  unfold loopOf at h ⊢
  by_cases hpm : f.opts.is_premium
  · rw [if_pos hpm] at h ⊢
    exact premiumLoop_done_spec amount script f.proxies clock h
  · rw [if_neg hpm] at h ⊢
    exact pacedLoop_done_spec amount script f.proxies _ h

/-- Call-count facts carried from either fill loop to the loop choice. -/
theorem loopOf_calls_spec (f : Fetcher) (amount : Nat) (clock : ClockState)
    (lock : LockState) (script : List FetchStep) (L : Nat) (hL : 0 < L)
    (hs : ∀ s ∈ script, pageLenIs L s = true)
    (h : (loopOf f amount clock lock script).tag = .done) :
    (loopOf f amount clock lock script).calls
      = (amount - f.proxies.length + L - 1) / L := by
  unfold loopOf at h ⊢
  by_cases hpm : f.opts.is_premium
  · rw [if_pos hpm] at h ⊢
    exact premiumLoop_calls_spec amount L hL script f.proxies clock hs h
  · rw [if_neg hpm] at h ⊢
    exact pacedLoop_calls_spec amount L hL script f.proxies _ hs h

/-- C4: a try_get that returns an error returns the first scripted error,
and the fetcher keeps every record that was buffered before the call plus
every page the earlier successful fetches of the call appended — drain
hands all of them back, so a failing try_get never discards buffered
records. -/
theorem c4_failure_preserves_buffer (f : Fetcher) (amount : Nat) (clock : ClockState)
    (lock : LockState) (script : List FetchStep) (e : ApiError)
    (h : (f.try_get amount clock lock script).result = .fail e) :
    (f.try_get amount clock lock script).fetcher.proxies
      = f.proxies ++ (pagesBeforeFail script).flatten ∧
    firstFail script = some e ∧
    (f.try_get amount clock lock script).fetcher.drain
      = f.proxies ++ (pagesBeforeFail script).flatten := by
  by_cases hb : amount ≤ f.proxies.length
  · exfalso
    simp [Fetcher.try_get, if_pos hb] at h
  · obtain ⟨-, -, -, -, hres, hprox⟩ := try_get_decomp f amount clock lock script hb
    rw [hres] at h
    cases htag : (loopOf f amount clock lock script).tag with
    | done => rw [htag] at h; simp at h
    | starved => rw [htag] at h; simp at h
    | failed e' =>
      rw [htag] at h
      simp only [TryGetOut.fail.injEq] at h
      subst h
      rw [htag] at hprox
      simp only [] at hprox
      obtain ⟨h1, h2⟩ := loopOf_failed_spec f amount clock lock script e' htag
      refine ⟨?_, h2, ?_⟩
      · rw [hprox]; exact h1
      · show (f.try_get amount clock lock script).fetcher.proxies = _
        rw [hprox]; exact h1

/-- C4 witness: a call whose second fetch fails keeps the first page
buffered and surfaces the failing error. -/
theorem c4_failure_preserves_buffer_w :
    (Fetcher.default.try_get 7 ⟨1100, 0⟩ .clean
        [.page samplePage 1, .fail .dailyLimit 3]).fetcher.proxies = samplePage ∧
    firstFail [.page samplePage 1, .fail .dailyLimit 3] = some .dailyLimit := by
  have h := c4_failure_preserves_buffer Fetcher.default 7 ⟨1100, 0⟩ .clean
    [.page samplePage 1, .fail .dailyLimit 3] .dailyLimit (by decide)
  exact ⟨h.1.trans (by decide), h.2.1⟩

/-- C6: a successful try_get returns exactly amount records, and together
with a following drain hands back, as a multiset, precisely the records
that were already buffered plus every record fetched from the remote
pages the call consumed — nothing lost, nothing duplicated. -/
theorem c6_residue_correctness (f : Fetcher) (amount : Nat) (clock : ClockState)
    (lock : LockState) (script : List FetchStep) (res : List Proxy)
    (h : (f.try_get amount clock lock script).result = .ok res) :
    res.length = amount ∧
    ∃ n, n ≤ script.length ∧ firstFail (script.take n) = none ∧
      (f.try_get amount clock lock script).fetcher.drain ++ res
        = f.proxies ++ (pagesBeforeFail (script.take n)).flatten ∧
      ((res ++ (f.try_get amount clock lock script).fetcher.drain : List Proxy) : Multiset Proxy)
        = ((f.proxies ++ (pagesBeforeFail (script.take n)).flatten : List Proxy) : Multiset Proxy) := by
  by_cases hb : amount ≤ f.proxies.length
  · simp only [Fetcher.try_get, if_pos hb, TryGetOut.ok.injEq] at h ⊢
    subst h
    refine ⟨by rw [List.length_drop]; omega, 0, by omega,
      by simp [firstFail], ?_, ?_⟩
    · simp [pagesBeforeFail, List.take_append_drop, Fetcher.drain]
    · refine Multiset.coe_eq_coe.mpr ?_
      refine List.perm_append_comm.trans ?_
      simp [pagesBeforeFail, List.take_append_drop, Fetcher.drain]
  · obtain ⟨-, -, -, -, hres, hprox⟩ := try_get_decomp f amount clock lock script hb
    rw [hres] at h
    cases htag : (loopOf f amount clock lock script).tag with
    | failed e => rw [htag] at h; simp at h
    | starved => rw [htag] at h; simp at h
    | done =>
      rw [htag] at h
      simp only [TryGetOut.ok.injEq] at h
      subst h
      rw [htag] at hprox
      simp only [] at hprox
      obtain ⟨hlen, n, hn, hff, hbuf⟩ := loopOf_done_spec f amount clock lock script htag
      refine ⟨by rw [List.length_drop]; omega, n, hn, hff, ?_, ?_⟩
      · simp only [Fetcher.drain]
        rw [hprox, List.take_append_drop, hbuf]
      · refine Multiset.coe_eq_coe.mpr ?_
        refine List.perm_append_comm.trans ?_
        simp only [Fetcher.drain]
        rw [hprox, List.take_append_drop, hbuf]

/-- C6 witness: one fetched page of five, three records taken, the
remaining two drained; together they are the page as a multiset. -/
theorem c6_residue_correctness_w :
    ([sampleProxy, sampleProxy, sampleProxy].length = 3) ∧
    ∃ n, n ≤ ([FetchStep.page samplePage 2] : List FetchStep).length ∧
      firstFail (([FetchStep.page samplePage 2] : List FetchStep).take n) = none ∧
      (Fetcher.default.try_get 3 ⟨1100, 0⟩ .clean [.page samplePage 2]).fetcher.drain
          ++ [sampleProxy, sampleProxy, sampleProxy]
        = Fetcher.default.proxies
            ++ (pagesBeforeFail (([FetchStep.page samplePage 2] : List FetchStep).take n)).flatten ∧
      (([sampleProxy, sampleProxy, sampleProxy]
          ++ (Fetcher.default.try_get 3 ⟨1100, 0⟩ .clean [.page samplePage 2]).fetcher.drain
          : List Proxy) : Multiset Proxy)
        = ((Fetcher.default.proxies
            ++ (pagesBeforeFail (([FetchStep.page samplePage 2] : List FetchStep).take n)).flatten
            : List Proxy) : Multiset Proxy) :=
  c6_residue_correctness Fetcher.default 3 ⟨1100, 0⟩ .clean [.page samplePage 2]
    [sampleProxy, sampleProxy, sampleProxy] (by decide)

/-- C7: the page size is fixed at finalisation solely by credential
presence (5 without an api key, 20 with one), is_premium holds iff an api
key is present, and a try_get that starts from an empty buffer and is
served full pages of L records answers k records with exactly the ceiling
of k over L remote calls (hence at least that many). -/
theorem c7_page_size_accumulation :
    (∀ (api_key : Option String) (level : Option Level) (protocol : Option Protocol)
        (countries : Option Countries) (last_checked : Option Nat) (port : Option Nat)
        (time_to_connect : Option Nat)
        (cookies connects_to_google https post referer forwards_user_agent : Option Bool),
        ((Opts.new api_key level protocol countries last_checked port time_to_connect
            cookies connects_to_google https post referer forwards_user_agent).limit
          = if api_key.isSome then Limit.premium else Limit.free) ∧
        (Opts.new api_key level protocol countries last_checked port time_to_connect
            cookies connects_to_google https post referer forwards_user_agent).is_premium
          = api_key.isSome) ∧
    Limit.free.val = 5 ∧
    Limit.premium.val = 20 ∧
    (∀ (f : Fetcher) (amount : Nat) (clock : ClockState) (lock : LockState)
        (script : List FetchStep) (L : Nat) (res : List Proxy),
        f.proxies = [] → 0 < L →
        (∀ s ∈ script, pageLenIs L s = true) →
        (f.try_get amount clock lock script).result = .ok res →
        (f.try_get amount clock lock script).calls = (amount + L - 1) / L) := by
  refine ⟨?_, rfl, rfl, ?_⟩
  · intro api_key level protocol countries last_checked port time_to_connect
      cookies connects_to_google https post referer forwards_user_agent
    cases api_key <;> exact ⟨rfl, rfl⟩
  · intro f amount clock lock script L res hemp hL hs h
    by_cases hb : amount ≤ f.proxies.length
    · have hz : amount = 0 := by rw [hemp] at hb; simpa using hb
      subst hz
      simp only [Fetcher.try_get, if_pos hb]
      rw [Nat.div_eq_of_lt (by omega)]
    · obtain ⟨-, -, hcalls, -, hres, -⟩ := try_get_decomp f amount clock lock script hb
      rw [hres] at h
      cases htag : (loopOf f amount clock lock script).tag with
      | failed e => rw [htag] at h; simp at h
      | starved => rw [htag] at h; simp at h
      | done =>
        rw [hcalls, loopOf_calls_spec f amount clock lock script L hL hs htag, hemp]
        simp

/-- C7 witness: seven records at page size five take two remote calls. -/
theorem c7_page_size_accumulation_w :
    (Fetcher.default.try_get 7 ⟨1100, 0⟩ .clean
      [.page samplePage 1, .page samplePage 1]).calls = 2 :=
  (c7_page_size_accumulation.2.2.2 Fetcher.default 7 ⟨1100, 0⟩ .clean
      [.page samplePage 1, .page samplePage 1] 5 (List.replicate 7 sampleProxy)
      rfl (by decide) (by decide) (by decide)).trans (by decide)

/-- The delay step starts the request no earlier than DELAY past the
stored timestamp and never before the current instant. -/
theorem requestStart_spec (clock : ClockState) (h : clock.lastFetched ≤ clock.now) :
    clock.lastFetched + DELAY ≤ requestStart clock ∧ clock.now ≤ requestStart clock := by
  unfold requestStart
  split <;> constructor <;> omega

/-- The keyless fill loop invariant: the stored timestamp only moves
forward and stays behind the current instant, adjacent request events obey
the success-gap relation, every event starts at least DELAY past the entry
timestamp, and every successful event's start is at most the exit
timestamp. -/
theorem pacedLoop_chain_spec (amount : Nat) :
    ∀ (script : List FetchStep) (buf : List Proxy) (clock : ClockState),
      clock.lastFetched ≤ clock.now →
      (clock.lastFetched ≤ (pacedLoop amount buf clock script).clock.lastFetched ∧
        (pacedLoop amount buf clock script).clock.lastFetched
          ≤ (pacedLoop amount buf clock script).clock.now) ∧
      List.Chain' succGap (pacedLoop amount buf clock script).events ∧
      (∀ ev ∈ (pacedLoop amount buf clock script).events,
        clock.lastFetched + DELAY ≤ ev.1) ∧
      (∀ ev ∈ (pacedLoop amount buf clock script).events,
        ev.2 = true → ev.1 ≤ (pacedLoop amount buf clock script).clock.lastFetched) := by
  intro script
  induction script with
  | nil =>
    intro buf clock h
    simp only [pacedLoop]
    split <;> exact ⟨⟨le_refl _, h⟩, List.chain'_nil, by simp, by simp⟩
  | cons step rest ih =>
    intro buf clock h
    cases step with
    | fail e d =>
      simp only [pacedLoop]
      split
      · exact ⟨⟨le_refl _, h⟩, List.chain'_nil, by simp, by simp⟩
      · obtain ⟨h1, h2⟩ := requestStart_spec clock h
        dsimp only
        refine ⟨⟨le_refl _, by omega⟩, List.chain'_singleton _, ?_, ?_⟩
        · intro ev hev
          rw [List.mem_singleton] at hev
          subst hev
          exact h1
        · intro ev hev ht
          rw [List.mem_singleton] at hev
          subst hev
          simp at ht
    | page p d =>
      simp only [pacedLoop]
      split
      · exact ⟨⟨le_refl _, h⟩, List.chain'_nil, by simp, by simp⟩
      · obtain ⟨h1, h2⟩ := requestStart_spec clock h
        obtain ⟨⟨m1, m2⟩, hch, hlb, hub⟩ :=
          ih (buf ++ p) ⟨requestStart clock + d, requestStart clock + d⟩ (le_refl _)
        dsimp only at m1 m2 hch hlb hub ⊢
        refine ⟨⟨by omega, m2⟩, ?_, ?_, ?_⟩
        · refine List.chain'_cons'.mpr ⟨?_, hch⟩
          intro b hb
          have hbmem := List.mem_of_mem_head? hb
          have := hlb b hbmem
          refine fun _ => ?_
          omega
        · intro ev hev
          rcases List.mem_cons.mp hev with h' | h'
          · subst h'
            exact h1
          · have := hlb ev h'
            omega
        · intro ev hev ht
          rcases List.mem_cons.mp hev with h' | h'
          · subst h'
            dsimp only
            omega
          · exact hub ev h' ht

/-- The try_get-level pacing invariant: whatever path the call takes, the
stored timestamp only moves forward and stays behind the current instant,
its events obey the success-gap relation, start at least DELAY past the
entry timestamp, and successful ones end before the exit timestamp. -/
theorem try_get_chain_spec (f : Fetcher) (amount : Nat) (clock : ClockState)
    (lock : LockState) (script : List FetchStep)
    (h : clock.lastFetched ≤ clock.now) :
    (clock.lastFetched ≤ (f.try_get amount clock lock script).clock.lastFetched ∧
      (f.try_get amount clock lock script).clock.lastFetched
        ≤ (f.try_get amount clock lock script).clock.now) ∧
    List.Chain' succGap (f.try_get amount clock lock script).events ∧
    (∀ ev ∈ (f.try_get amount clock lock script).events,
      clock.lastFetched + DELAY ≤ ev.1) ∧
    (∀ ev ∈ (f.try_get amount clock lock script).events,
      ev.2 = true → ev.1 ≤ (f.try_get amount clock lock script).clock.lastFetched) := by
  by_cases hb : amount ≤ f.proxies.length
  · simp only [Fetcher.try_get, if_pos hb]
    exact ⟨⟨le_refl _, h⟩, List.chain'_nil, by simp, by simp⟩
  · obtain ⟨hclock, hev, -, -, -, -⟩ := try_get_decomp f amount clock lock script hb
    rw [hclock, hev]
    unfold loopOf
    by_cases hpm : f.opts.is_premium
    · rw [if_pos hpm]
      obtain ⟨hc, he⟩ := premiumLoop_static amount script f.proxies clock
      rw [hc, he]
      exact ⟨⟨le_refl _, h⟩, List.chain'_nil, by simp, by simp⟩
    · rw [if_neg hpm]
      have ha1 : clock.lastFetched ≤ (acquireClock lock clock).lastFetched := by
        cases lock <;> simp only [acquireClock] <;> omega
      have ha2 : (acquireClock lock clock).lastFetched ≤ (acquireClock lock clock).now := by
        cases lock <;> simp only [acquireClock] <;> omega
      obtain ⟨⟨m1, m2⟩, hch, hlb, hub⟩ :=
        pacedLoop_chain_spec amount script f.proxies (acquireClock lock clock) ha2
      refine ⟨⟨le_trans ha1 m1, m2⟩, hch, ?_, hub⟩
      intro ev hmem
      have := hlb ev hmem
      omega

/-- The session-level pacing invariant: over any serialized sequence of
calls threading one shared clock, the accumulated events obey the
success-gap relation. -/
theorem runSession_spec :
    ∀ (calls : List SessionCall) (clock : ClockState),
      clock.lastFetched ≤ clock.now →
      (clock.lastFetched ≤ (runSession clock calls).1.lastFetched ∧
        (runSession clock calls).1.lastFetched ≤ (runSession clock calls).1.now) ∧
      List.Chain' succGap (runSession clock calls).2 ∧
      (∀ ev ∈ (runSession clock calls).2, clock.lastFetched + DELAY ≤ ev.1) ∧
      (∀ ev ∈ (runSession clock calls).2, ev.2 = true →
        ev.1 ≤ (runSession clock calls).1.lastFetched) := by
  intro calls
  induction calls with
  | nil =>
    intro clock h
    simp only [runSession]
    exact ⟨⟨le_refl _, h⟩, List.chain'_nil, by simp, by simp⟩
  | cons c cs ih =>
    intro clock h
    obtain ⟨⟨t1, t2⟩, tch, tlb, tub⟩ :=
      try_get_chain_spec c.fetcher c.amount ⟨clock.now + c.gap, clock.lastFetched⟩
        c.lock c.script (by dsimp only; omega)
    dsimp only at t1 tlb
    obtain ⟨⟨s1, s2⟩, sch, slb, sub'⟩ :=
      ih (c.fetcher.try_get c.amount ⟨clock.now + c.gap, clock.lastFetched⟩
        c.lock c.script).clock t2
    simp only [runSession]
    refine ⟨⟨le_trans t1 s1, s2⟩, ?_, ?_, ?_⟩
    · refine List.Chain'.append tch sch ?_
      intro a ha b hb
      have hamem := List.mem_of_mem_getLast? ha
      have hbmem := List.mem_of_mem_head? hb
      refine fun hta => ?_
      have hup := tub a hamem hta
      have hlo := slb b hbmem
      omega
    · intro ev hmem
      rcases List.mem_append.mp hmem with h' | h'
      · exact tlb ev h'
      · have := slb ev h'
        omega
    · intro ev hmem ht
      rcases List.mem_append.mp hmem with h' | h'
      · have := tub ev h' ht
        omega
      · exact sub' ev h' ht

/-- C1 (amended): over every serialized sequence of try_get calls sharing
one clock that starts consistent, any two adjacent remote calls of which
the earlier succeeded start at least DELAY apart (the loop updates the
shared timestamp only after successful requests, so a failed call does not
push the next one out). -/
theorem c1_rate_limit_amended (clock : ClockState) (calls : List SessionCall)
    (h : clock.lastFetched ≤ clock.now) :
    List.Chain' succGap (runSession clock calls).2 :=
  (runSession_spec calls clock h).2.1

/-- C1 counterexample: the claim as stated (every two adjacent remote
calls under the session start at least DELAY apart) fails on a run whose
first fetch errors: the retry starts 5 ms after the failed call. -/
theorem c1_rate_limit_cex :
    cexClock.lastFetched ≤ cexClock.now ∧
    ¬ List.Chain' (fun a b : Nat × Bool => a.1 + DELAY ≤ b.1)
      (runSession cexClock cexCalls).2 := by
  constructor
  · decide
  · intro hch
    have hev : (runSession cexClock cexCalls).2 = [(1100, false), (1105, true)] := by
      decide
    rw [hev] at hch
    exact absurd (List.chain'_cons.mp hch).1 (by decide)

/-- C1 witness: a two-call all-successful run from a consistent clock
satisfies the success-gap chain. -/
theorem c1_rate_limit_amended_w :
    (⟨2200, 1100⟩ : ClockState).lastFetched ≤ (⟨2200, 1100⟩ : ClockState).now ∧
    List.Chain' succGap (runSession ⟨2200, 1100⟩ demoCalls).2 :=
  ⟨by decide, c1_rate_limit_amended ⟨2200, 1100⟩ demoCalls (by decide)⟩

end LeadOxide
